import Mathlib

/-!
Shallow embedding of the `tailreader` Go package (tailreader.go, options.go).

The engine's interactions with the operating system are modelled by an
explicit environment `Env` of pending responses: `stats` are the successive
results of `os.Stat` on the target path (`none` = the stat fails, i.e. the
file is absent or inaccessible), `opens` the successive results of `os.Open`
(`true` = failure), `readWorlds` the file contents observed by successive
`file.Read` calls on the open handle, `watch` the successive deliveries of
the fsnotify select loop (an event, a transport error, or the timer firing),
and the two `...CloseErrs` lists the results of `file.Close` and
`watcher.Close`.  Blocking loops are run with explicit fuel; a `none` result
means the run is not determined by the given fuel/environment (the code
blocks or loops beyond them).  Machine `int64` values (sizes, offsets,
durations) are modelled as `Int`; the byte counts of a single read are `Nat`.
-/

namespace Tailreader

/-- Error and status values produced by the engine (Go `error` values):
`eof` is `io.EOF` (EndOfStream), `idleTimeout` is `ErrIdleTimeout`,
`waitTimeout` is `ErrWaitTimeout`, `timeout` is the internal `errTimeout`,
`fileAccess` stands for an `os.Stat`/`os.Open` failure, `readFailure` for a
non-EOF `file.Read` error, `closeFailure` for a `file.Close` error and
`notification` for an error delivered on the watcher's error channel. -/
inductive Err where
  | eof
  | idleTimeout
  | waitTimeout
  | timeout
  | fileAccess
  | readFailure
  | closeFailure
  | notification
deriving DecidableEq, Repr

/-- One delivery of the select loop in `waitForEventWithTimeout`: an
fsnotify event (operation bitmask and absolute path), a transport error
from the watcher's error channel, or the timer channel firing. -/
inductive WatchItem where
  | event (op : Nat) (name : String)
  | error
  | timeout
deriving DecidableEq, Repr

/-- The fsnotify operation bits (fsnotify.Op). -/
def Create : Nat := 1

def Write : Nat := 2

def Remove : Nat := 4

def Rename : Nat := 8

def Chmod : Nat := 16

/-- fsnotify's `Op.Has`: whether bitmask `o` contains any bit of `h`. -/
def OpHas (o h : Nat) : Bool := o &&& h != 0

/-- The configuration record (options.go, `Options`). -/
structure Options where
  WaitForFile : Bool
  WaitForFileTimeout : Int
  CloseOnDelete : Bool
  CloseOnTruncate : Bool
  IdleTimeout : Int
  TreatTimeoutsAsEOF : Bool
deriving DecidableEq, Repr

/-- The zero value of `Options` that `NewTailingReader` starts from. -/
def zeroOptions : Options :=
  { WaitForFile := false, WaitForFileTimeout := 0, CloseOnDelete := false,
    CloseOnTruncate := false, IdleTimeout := 0, TreatTimeoutsAsEOF := false }

def WithWaitForFile (wait : Bool) (timeout : Int) (opts : Options) : Options :=
  { opts with WaitForFile := wait, WaitForFileTimeout := timeout }

def WithCloseOnDelete (close : Bool) (opts : Options) : Options :=
  { opts with CloseOnDelete := close }

def WithCloseOnTruncate (close : Bool) (opts : Options) : Options :=
  { opts with CloseOnTruncate := close }

def WithIdleTimeout (timeout : Int) (opts : Options) : Options :=
  { opts with IdleTimeout := timeout }

def WithTimeoutsAsEOF (timeoutsAsEOF : Bool) (opts : Options) : Options :=
  { opts with TreatTimeoutsAsEOF := timeoutsAsEOF }

def DefaultOptions : List (Options → Options) :=
  [WithWaitForFile true 0, WithCloseOnDelete false]

/-- The content of the open handle's file as seen by one `file.Read` call,
together with whether the operating system fails that read. -/
structure ReadWorld where
  content : List Nat
  failure : Bool
deriving DecidableEq, Repr

/-- The pending operating-system responses (see the module docstring). -/
structure Env where
  stats : List (Option Int)
  opens : List Bool
  readWorlds : List ReadWorld
  watch : List WatchItem
  fileCloseErrs : List Bool
  watcherCloseErrs : List Bool
deriving DecidableEq, Repr

/-- The engine state (tailreader.go, `TailingReader`): `fileOpen` models
`file != nil`, `watcherOpen` models `watcher != nil`. -/
structure TailingReader where
  fileOpen : Bool
  filePath : String
  options : Options
  watcherOpen : Bool
  offset : Int
deriving DecidableEq, Repr

/-- `NewTailingReader`: applies `DefaultOptions` when no option is given,
then folds the options left-to-right over the zero configuration.  Watcher
creation and `watcher.Add` on the parent directory are assumed to succeed
(their failure aborts construction and never yields an engine state). -/
def NewTailingReader (filePath : String) (options : List (Options → Options)) :
    TailingReader :=
  let options := if options.isEmpty then DefaultOptions else options
  { fileOpen := false, filePath := filePath,
    options := options.foldl (fun o f => f o) zeroOptions,
    watcherOpen := true, offset := 0 }

/-- Pop the next injected error flag off a list, defaulting to success. -/
def popBool : List Bool → Bool × List Bool
  | [] => (false, [])
  | b :: t => (b, t)

/-- `closeFile`: if no handle is open this is a no-op; otherwise the handle
is cleared and `offset` zeroed before the close error (if any) is reported. -/
def closeFile (r : TailingReader) (env : Env) : Option Err × TailingReader × Env :=
  if r.fileOpen then
    let p := popBool env.fileCloseErrs
    ((if p.1 then some Err.closeFailure else none),
      { r with fileOpen := false, offset := 0 },
      { env with fileCloseErrs := p.2 })
  else (none, r, env)

/-- `openFile`: a no-op when the handle is already open; otherwise `os.Open`
is consulted and on success the handle is set and `offset` reset to 0. -/
def openFile (r : TailingReader) (env : Env) : Option Err × TailingReader × Env :=
  if r.fileOpen then (none, r, env)
  else
    let p := popBool env.opens
    if p.1 then (some Err.fileAccess, r, { env with opens := p.2 })
    else (none, { r with fileOpen := true, offset := 0 }, { env with opens := p.2 })

/-- `Close`: closes the watcher (clearing it) and, only when that close
succeeded, also closes the file handle via `closeFile`. -/
def Close (r : TailingReader) (env : Env) : Option Err × TailingReader × Env :=
  let p := popBool env.watcherCloseErrs
  let r2 : TailingReader := { r with watcherOpen := false }
  let env2 : Env := { env with watcherCloseErrs := p.2 }
  if p.1 then (some Err.notification, r2, env2)
  else closeFile r2 env2

/-- `waitForEventWithTimeout`: the select loop over the watcher's event
channel, error channel and (when `timeout > 0`) the timer channel.  An event
is accepted only when its operation bits are all contained in `mask` and its
path equals `filePath` exactly; every other event is skipped.  A timer
delivery is only possible when `timeout > 0` (otherwise the timer channel is
nil and can never fire).  Returns the pair (error, accepted operation) of
the Go function and the remaining deliveries. -/
def waitForEventWithTimeout (filePath : String) (mask : Nat) (timeout : Int) :
    List WatchItem → Option ((Option Err × Nat) × List WatchItem)
  | [] => none
  | WatchItem.event op name :: rest =>
      if mask &&& op == op && name == filePath then some ((none, op), rest)
      else waitForEventWithTimeout filePath mask timeout rest
  | WatchItem.error :: rest => some ((some Err.notification, 0), rest)
  | WatchItem.timeout :: rest =>
      if timeout > 0 then some ((some Err.timeout, 0), rest)
      else waitForEventWithTimeout filePath mask timeout rest

/-- `waitForFile(forceWait)`: loops statting the target path.  On a stat
success the observed size is returned with no error and no state change.
On a stat failure: with `WaitForFile` unset and `forceWait` unset the stat
error is returned as a `fileAccess` failure; otherwise, when a handle is
open and `CloseOnDelete` is set, the handle is closed and `eof` returned;
otherwise the loop blocks for a creation event on the exact path, mapping a
timer expiry to `eof` (when `TreatTimeoutsAsEOF`) or `waitTimeout`, and
loops again on an accepted creation event.  Returns (size, error). -/
def waitForFile (forceWait : Bool) (r : TailingReader) (env : Env) :
    Nat → Option (Int × Option Err × TailingReader × Env)
  | 0 => none
  | Nat.succ fuel =>
    match env.stats with
    | [] => none
    | res :: rest =>
      let env1 : Env := { env with stats := rest }
      match res with
      | some size => some (size, none, r, env1)
      | none =>
        if !r.options.WaitForFile && !forceWait then
          some (0, some Err.fileAccess, r, env1)
        else if r.fileOpen && r.options.CloseOnDelete then
          let q := closeFile r env1
          some (0, some Err.eof, q.2.1, q.2.2)
        else
          match waitForEventWithTimeout r.filePath Create r.options.WaitForFileTimeout env1.watch with
          | none => none
          | some ((e0, _), watch2) =>
            match e0 with
            | none => waitForFile forceWait r { env1 with watch := watch2 } fuel
            | some e1 =>
              if e1 = Err.timeout then
                if r.options.TreatTimeoutsAsEOF then
                  some (0, some Err.eof, r, { env1 with watch := watch2 })
                else
                  some (0, some Err.waitTimeout, r, { env1 with watch := watch2 })
              else some (0, some e1, r, { env1 with watch := watch2 })

/-- `WaitForFile()`: the public forced wait; discards the size observed by
`waitForFile` and returns only its error component. -/
def WaitForFile (r : TailingReader) (env : Env) (fuel : Nat) :
    Option (Option Err × TailingReader × Env) :=
  match waitForFile true r env fuel with
  | none => none
  | some (_, e, r2, env2) => some (e, r2, env2)

/-- The value of one whole `Read` call: byte count, the bytes written into
the caller's buffer, the returned error, and the final state/environment. -/
abbrev RetV := Nat × List Nat × Option Err × TailingReader × Env

/-- The event mask of the idle wait in `Read` (line 203 of tailreader.go):
`Write|Remove|Rename|Chmod` — creation is not included. -/
def idleMask : Nat := Write ||| Remove ||| Rename ||| Chmod

/-- The tail of `Read`'s loop body (lines 202-221): block for an event on
the idle mask; map a timer expiry to `eof`/`idleTimeout` per configuration;
propagate transport errors; on a remove/rename event either return `eof`
(when `CloseOnDelete`) or close the handle and continue the loop. -/
def readWait (r : TailingReader) (env : Env) :
    Option (RetV ⊕ TailingReader × Env) :=
  match waitForEventWithTimeout r.filePath idleMask r.options.IdleTimeout env.watch with
  | none => none
  | some ((e, event), watch2) =>
    let env1 : Env := { env with watch := watch2 }
    match e with
    | some e2 =>
      if e2 = Err.timeout then
        if r.options.TreatTimeoutsAsEOF then some (Sum.inl (0, [], some Err.eof, r, env1))
        else some (Sum.inl (0, [], some Err.idleTimeout, r, env1))
      else some (Sum.inl (0, [], some e2, r, env1))
    | none =>
      if OpHas event Remove || OpHas event Rename then
        if r.options.CloseOnDelete then some (Sum.inl (0, [], some Err.eof, r, env1))
        else
          let q := closeFile r env1
          some (Sum.inr (q.2.1, q.2.2))
      else some (Sum.inr (r, env1))

/-- One `file.Read(p)` call on the open handle: `pos` is the handle's
current position (which the engine keeps equal to `offset`), `cap` the
caller's buffer capacity.  A zero-capacity buffer reads 0 bytes with no
error; at or past end of file the read reports `eof`; otherwise up to `cap`
bytes starting at `pos` are returned. -/
def fileRead (w : ReadWorld) (pos cap : Nat) : Nat × List Nat × Option Err :=
  if w.failure then (0, [], some Err.readFailure)
  else if cap = 0 then (0, [], none)
  else if pos < w.content.length then
    (min cap (w.content.length - pos),
      (w.content.drop pos).take (min cap (w.content.length - pos)), none)
  else (0, [], some Err.eof)

/-- Lines 183-200 of `Read`: when `offset < size` open the handle if needed
and read; a non-EOF read error is returned with count 0; a positive count
advances `offset` and is returned with no error; a zero count (or EOF)
falls through to the idle wait `readWait`. -/
def readData (cap : Nat) (size : Int) (r : TailingReader) (env : Env) :
    Option (RetV ⊕ TailingReader × Env) :=
  if r.offset < size then
    match openFile r env with
    | (some e, r2, env2) => some (Sum.inl (0, [], some e, r2, env2))
    | (none, r2, env2) =>
      match env2.readWorlds with
      | [] => none
      | w :: ws =>
        let env3 : Env := { env2 with readWorlds := ws }
        match fileRead w r2.offset.toNat cap with
        | (n, bs, e) =>
          if e ≠ none ∧ e ≠ some Err.eof then some (Sum.inl (0, [], e, r2, env3))
          else if 0 < n then
            some (Sum.inl (n, bs, none, { r2 with offset := r2.offset + (n : Int) }, env3))
          else readWait r2 env3
  else readWait r env

/-- One iteration of `Read`'s loop: resolve the size via the non-forcing
`waitForFile`; on `offset > size` close the handle (truncation) and return
`eof` when `CloseOnTruncate`; then read available data or block. -/
def readIter (cap : Nat) (r : TailingReader) (env : Env) (fuel : Nat) :
    Option (RetV ⊕ TailingReader × Env) :=
  match waitForFile false r env fuel with
  | none => none
  | some (_, some e, r1, env1) => some (Sum.inl (0, [], some e, r1, env1))
  | some (size, none, r1, env1) =>
    if size < r1.offset then
      let q := closeFile r1 env1
      if r1.options.CloseOnTruncate then some (Sum.inl (0, [], some Err.eof, q.2.1, q.2.2))
      else readData cap size q.2.1 q.2.2
    else readData cap size r1 env1

/-- `Read(p)` with a buffer of capacity `cap`: iterate the loop body until
it returns, with explicit fuel bounding both the outer loop and the inner
`waitForFile` loop. -/
def Read (cap : Nat) (r : TailingReader) (env : Env) : Nat → Option RetV
  | 0 => none
  | Nat.succ fuel =>
    match readIter cap r env fuel with
    | none => none
    | some (Sum.inl out) => some out
    | some (Sum.inr (r2, env2)) => Read cap r2 env2 fuel

/-- The engine-state invariant: the offset is never negative and is zero
whenever no handle is open. -/
def Inv (r : TailingReader) : Prop :=
  0 ≤ r.offset ∧ (r.fileOpen = false → r.offset = 0)

instance (r : TailingReader) : Decidable (Inv r) := by
  unfold Inv; infer_instance

/-- The state left behind by a successful `closeFile` on an open handle. -/
def clearFile (r : TailingReader) : TailingReader :=
  { r with fileOpen := false, offset := 0 }

/-- The property of a successful data return: the bytes are a byte-exact
copy of the observed file content starting at the pre-read offset, and the
final offset is that pre-read offset advanced by exactly the count. -/
def DataOk (cap : Nat) (worlds : List ReadWorld) (n : Nat) (bs : List Nat)
    (r' : TailingReader) : Prop :=
  ∃ w, w ∈ worlds ∧ w.failure = false ∧ ∃ old : Nat,
    old < w.content.length ∧ n = min cap (w.content.length - old) ∧
    bs = (w.content.drop old).take n ∧ r'.offset = (old : Int) + (n : Int)

/-- The given reader with only its `WaitForFile` option replaced. -/
def setWaitFlag (r : TailingReader) (b : Bool) : TailingReader :=
  { r with options := { r.options with WaitForFile := b } }

/-- An environment with no pending responses. -/
def emptyEnv : Env :=
  { stats := [], opens := [], readWorlds := [], watch := [], fileCloseErrs := [],
    watcherCloseErrs := [] }

/-- Fixtures for the concrete runs used by witnesses and counterexamples. -/
def c1r : TailingReader := NewTailingReader "f" []

def c1bs : List Nat := [7, 7, 7, 7, 7, 7, 7, 7, 7, 7, 7, 7, 7]

def c1env : Env :=
  { emptyEnv with
    stats := [some 13], opens := [false],
    readWorlds := [(⟨c1bs, false⟩ : ReadWorld)] }

def c1rOut : TailingReader := { c1r with fileOpen := true, offset := 13 }

def c10r : TailingReader := NewTailingReader "f" [WithWaitForFile true 0, WithIdleTimeout 5]

def c7r : TailingReader := NewTailingReader "f" [WithWaitForFile true 3]

def c7env : Env := { emptyEnv with stats := [none], watch := [WatchItem.timeout] }

def c2r : TailingReader :=
  { fileOpen := true, filePath := "f", options := { zeroOptions with WaitForFile := true },
    watcherOpen := true, offset := 10 }

def c2rT : TailingReader := { c2r with options := { c2r.options with CloseOnTruncate := true } }

def c2env : Env :=
  { emptyEnv with
    stats := [some 5], opens := [false],
    readWorlds := [(⟨[1, 2, 3, 4, 5], false⟩ : ReadWorld)] }

def c3rA : TailingReader :=
  { fileOpen := true, filePath := "f", options := { zeroOptions with CloseOnDelete := true },
    watcherOpen := true, offset := 3 }

def c3rB : TailingReader :=
  { fileOpen := true, filePath := "f", options := { zeroOptions with WaitForFile := true },
    watcherOpen := true, offset := 3 }

def c3rC : TailingReader :=
  { c3rB with options := { c3rB.options with CloseOnDelete := true } }

def c3envB : Env :=
  { emptyEnv with
    stats := [none, some 7], opens := [true],
    readWorlds := [(⟨[9, 9, 9, 9, 9, 9, 9], false⟩ : ReadWorld)],
    watch := [WatchItem.event Create "f"] }

theorem closeFile_state (r : TailingReader) (env : Env) :
    (closeFile r env).2.1 = if r.fileOpen then clearFile r else r := by
  unfold closeFile clearFile
  by_cases h : r.fileOpen <;> simp [h]

theorem closeFile_env (r : TailingReader) (env : Env) :
    (closeFile r env).2.2.stats = env.stats ∧ (closeFile r env).2.2.opens = env.opens ∧
    (closeFile r env).2.2.readWorlds = env.readWorlds ∧
    (closeFile r env).2.2.watch = env.watch ∧
    (closeFile r env).2.2.watcherCloseErrs = env.watcherCloseErrs := by
  unfold closeFile
  by_cases h : r.fileOpen <;> simp [h]

theorem openFile_none (r : TailingReader) (env : Env) (r2 : TailingReader) (env2 : Env)
    (h : openFile r env = (none, r2, env2)) :
    (r2 = r ∧ r.fileOpen = true) ∨
      (r.fileOpen = false ∧ r2 = { r with fileOpen := true, offset := 0 }) := by
  unfold openFile at h
  by_cases hf : r.fileOpen
  · simp [hf] at h
    exact Or.inl ⟨h.1.symm, hf⟩
  · by_cases hp : (popBool env.opens).1 <;> simp [hf, hp] at h
    exact Or.inr ⟨by simpa using hf, h.1.symm⟩

theorem openFile_some (r : TailingReader) (env : Env) (e : Err) (r2 : TailingReader)
    (env2 : Env) (h : openFile r env = (some e, r2, env2)) :
    r2 = r ∧ e = Err.fileAccess := by
  unfold openFile at h
  by_cases hf : r.fileOpen
  · simp [hf] at h
  · simp [hf] at h
    by_cases hp : (popBool env.opens).1 <;> simp [hp] at h
    exact ⟨h.2.1.symm, h.1.symm⟩

theorem openFile_env (r : TailingReader) (env : Env) :
    (openFile r env).2.2.stats = env.stats ∧
    (openFile r env).2.2.readWorlds = env.readWorlds ∧
    (openFile r env).2.2.watch = env.watch ∧
    (openFile r env).2.2.fileCloseErrs = env.fileCloseErrs := by
  unfold openFile
  by_cases hf : r.fileOpen
  · simp [hf]
  · by_cases hp : (popBool env.opens).1 <;> simp [hf, hp]

theorem fileRead_pos (w : ReadWorld) (pos cap n : Nat) (bs : List Nat) (e : Option Err)
    (h : fileRead w pos cap = (n, bs, e)) (hn : 0 < n) :
    w.failure = false ∧ pos < w.content.length ∧ n = min cap (w.content.length - pos) ∧
      bs = (w.content.drop pos).take n ∧ e = none := by
  unfold fileRead at h
  split_ifs at h with h1 h2 h3
  · simp at h; omega
  · simp at h; omega
  · simp only [Prod.mk.injEq] at h
    obtain ⟨h4, h5, h6⟩ := h
    refine ⟨by simpa using h1, h3, h4.symm, ?_, h6.symm⟩
    rw [← h4]
    exact h5.symm
  · simp at h; omega

theorem wfe_skip_name (fp : String) (mask : Nat) (t : Int) (op : Nat) (name : String)
    (rest : List WatchItem) (h : name ≠ fp) :
    waitForEventWithTimeout fp mask t (WatchItem.event op name :: rest) =
      waitForEventWithTimeout fp mask t rest := by
  conv_lhs => rw [waitForEventWithTimeout]
  simp [h]

theorem wfe_skip_op (fp : String) (mask : Nat) (t : Int) (op : Nat) (name : String)
    (rest : List WatchItem) (h : mask &&& op ≠ op) :
    waitForEventWithTimeout fp mask t (WatchItem.event op name :: rest) =
      waitForEventWithTimeout fp mask t rest := by
  conv_lhs => rw [waitForEventWithTimeout]
  simp [h]

theorem wfe_accept (fp : String) (mask : Nat) (t : Int) (op : Nat)
    (rest : List WatchItem) (h : mask &&& op = op) :
    waitForEventWithTimeout fp mask t (WatchItem.event op fp :: rest) =
      some ((none, op), rest) := by
  conv_lhs => rw [waitForEventWithTimeout]
  simp [h]

theorem wfe_accepted_mask (fp : String) (mask : Nat) (t : Int) :
    ∀ (items rest : List WatchItem) (op : Nat),
    waitForEventWithTimeout fp mask t items = some ((none, op), rest) →
    mask &&& op = op := by
  intro items
  induction items with
  | nil => intro rest op h; simp [waitForEventWithTimeout] at h
  | cons item tl ih =>
    intro rest op h
    cases item with
    | event op2 name =>
      rw [waitForEventWithTimeout] at h
      split at h
      next hc =>
        simp at h hc
        obtain ⟨h1, h2⟩ := h
        subst h1
        exact hc.1
      next hc => exact ih rest op h
    | error =>
      rw [waitForEventWithTimeout] at h
      simp at h
    | timeout =>
      rw [waitForEventWithTimeout] at h
      split at h
      next => simp at h
      next => exact ih rest op h

theorem waitForFile_spec (fuel : Nat) :
    ∀ (force : Bool) (r : TailingReader) (env : Env) (sz : Int) (e : Option Err)
      (r' : TailingReader) (env' : Env),
    waitForFile force r env fuel = some (sz, e, r', env') →
    (r' = r ∨ (e = some Err.eof ∧ r' = clearFile r)) ∧
      env'.readWorlds = env.readWorlds ∧ env'.opens = env.opens := by
  induction fuel with
  | zero => intro force r env sz e r' env' h; simp [waitForFile] at h
  | succ fuel ih =>
    intro force r env sz e r' env' h
    rw [waitForFile] at h
    rcases hstats : env.stats with _ | ⟨res, rest⟩ <;> rw [hstats] at h
    · simp at h
    rcases res with _ | size
    · -- stat failure
      dsimp only at h
      by_cases hw : (!r.options.WaitForFile && !force) = true
      · rw [if_pos hw] at h
        simp at h
        obtain ⟨_, _, h3, h4⟩ := h
        subst h3 h4
        simp
      · rw [if_neg hw] at h
        by_cases hd : (r.fileOpen && r.options.CloseOnDelete) = true
        · rw [if_pos hd] at h
          simp at hd
          rcases hcf : closeFile r { env with stats := rest } with ⟨ce, cr, cenv⟩
          rw [hcf] at h
          simp at h
          obtain ⟨_, h2, h3, h4⟩ := h
          have hs := closeFile_state r { env with stats := rest }
          have he := closeFile_env r { env with stats := rest }
          rw [hcf, hd.1] at hs
          rw [hcf] at he
          simp at hs he
          subst h3
          subst h4
          exact ⟨Or.inr ⟨h2.symm, hs⟩, he.2.2.1, he.2.1⟩
        · rw [if_neg hd] at h
          rcases hwfe : waitForEventWithTimeout r.filePath Create r.options.WaitForFileTimeout env.watch
            with _ | ⟨⟨e0, op0⟩, watch2⟩ <;> rw [hwfe] at h
          · simp at h
          rcases e0 with _ | e1
          · -- accepted creation event: loop
            dsimp only at h
            have := ih force r _ sz e r' env' h
            simpa using this
          · dsimp only at h
            by_cases ht : e1 = Err.timeout
            · rw [if_pos ht] at h
              by_cases htr : r.options.TreatTimeoutsAsEOF = true <;>
                [rw [if_pos htr] at h; rw [if_neg htr] at h] <;>
              · simp at h
                obtain ⟨_, _, h3, h4⟩ := h
                subst h3 h4
                simp
            · rw [if_neg ht] at h
              simp at h
              obtain ⟨_, _, h3, h4⟩ := h
              subst h3 h4
              simp
    · -- stat success
      dsimp only at h
      simp at h
      obtain ⟨_, _, h3, h4⟩ := h
      subst h3 h4
      simp

theorem readWait_inl (r : TailingReader) (env : Env) (n : Nat) (bs : List Nat)
    (e : Option Err) (r' : TailingReader) (env' : Env)
    (h : readWait r env = some (Sum.inl (n, bs, e, r', env'))) :
    n = 0 ∧ bs = [] ∧ r' = r ∧ (∃ e2, e = some e2) ∧
      env'.readWorlds = env.readWorlds ∧ env'.opens = env.opens ∧
      env'.stats = env.stats := by
  unfold readWait at h
  rcases hwfe : waitForEventWithTimeout r.filePath idleMask r.options.IdleTimeout env.watch
    with _ | ⟨⟨e0, op0⟩, watch2⟩ <;> rw [hwfe] at h
  · simp at h
  rcases e0 with _ | e1
  · dsimp only at h
    by_cases hrr : (OpHas op0 Remove || OpHas op0 Rename) = true
    · rw [if_pos hrr] at h
      by_cases hcd : r.options.CloseOnDelete = true
      · rw [if_pos hcd] at h
        simp at h
        obtain ⟨h1, h2, h3, h4, h5⟩ := h
        subst h1; subst h2; subst h3; subst h4; subst h5
        simp
      · rw [if_neg hcd] at h
        simp at h
    · rw [if_neg hrr] at h
      simp at h
  · dsimp only at h
    by_cases ht : e1 = Err.timeout
    · rw [if_pos ht] at h
      by_cases htr : r.options.TreatTimeoutsAsEOF = true <;>
        [rw [if_pos htr] at h; rw [if_neg htr] at h] <;>
      · simp at h
        obtain ⟨h1, h2, h3, h4, h5⟩ := h
        subst h1; subst h2; subst h3; subst h4; subst h5
        simp
    · rw [if_neg ht] at h
      simp at h
      obtain ⟨h1, h2, h3, h4, h5⟩ := h
      subst h1; subst h2; subst h3; subst h4; subst h5
      simp

theorem readWait_inr (r : TailingReader) (env : Env) (r2 : TailingReader) (env2 : Env)
    (h : readWait r env = some (Sum.inr (r2, env2))) :
    (r2 = r ∨ r2 = clearFile r) ∧ env2.readWorlds = env.readWorlds ∧
      env2.opens = env.opens ∧ env2.stats = env.stats := by
  unfold readWait at h
  rcases hwfe : waitForEventWithTimeout r.filePath idleMask r.options.IdleTimeout env.watch
    with _ | ⟨⟨e0, op0⟩, watch2⟩ <;> rw [hwfe] at h
  · simp at h
  rcases e0 with _ | e1
  · dsimp only at h
    by_cases hrr : (OpHas op0 Remove || OpHas op0 Rename) = true
    · rw [if_pos hrr] at h
      by_cases hcd : r.options.CloseOnDelete = true
      · rw [if_pos hcd] at h
        simp at h
      · rw [if_neg hcd] at h
        rcases hcf : closeFile r { env with watch := watch2 } with ⟨ce, cr, cenv⟩
        rw [hcf] at h
        simp at h
        obtain ⟨h1, h2⟩ := h
        subst h1; subst h2
        have hs := closeFile_state r { env with watch := watch2 }
        have he := closeFile_env r { env with watch := watch2 }
        rw [hcf] at hs he
        simp at hs he
        constructor
        · by_cases hf : r.fileOpen = true <;> simp [hf] at hs
          · exact Or.inr hs
          · exact Or.inl hs
        · exact ⟨he.2.2.1, he.2.1, he.1⟩
    · rw [if_neg hrr] at h
      simp at h
      obtain ⟨h1, h2⟩ := h
      subst h1; subst h2
      simp
  · dsimp only at h
    by_cases ht : e1 = Err.timeout
    · rw [if_pos ht] at h
      by_cases htr : r.options.TreatTimeoutsAsEOF = true <;>
        [rw [if_pos htr] at h; rw [if_neg htr] at h] <;> simp at h
    · rw [if_neg ht] at h
      simp at h

theorem DataOk_mono (cap : Nat) (ws1 ws2 : List ReadWorld) (n : Nat) (bs : List Nat)
    (r' : TailingReader) (h : DataOk cap ws1 n bs r') (hsub : ws1 <:+ ws2) :
    DataOk cap ws2 n bs r' := by
  obtain ⟨w, hw, rest⟩ := h
  exact ⟨w, hsub.subset hw, rest⟩

theorem readData_inl (cap : Nat) (size : Int) (r : TailingReader) (env : Env)
    (n : Nat) (bs : List Nat) (e : Option Err) (r' : TailingReader) (env' : Env)
    (hInv : Inv r) (h : readData cap size r env = some (Sum.inl (n, bs, e, r', env'))) :
    Inv r' ∧ (e = none → 0 < n ∧ DataOk cap env.readWorlds n bs r') ∧
      (e ≠ none → n = 0 ∧ bs = []) := by
  unfold readData at h
  by_cases hlt : r.offset < size
  · rw [if_pos hlt] at h
    rcases hof : openFile r env with ⟨oe, r2, env2⟩
    rw [hof] at h
    have hofe := openFile_env r env
    rw [hof] at hofe
    simp at hofe
    rcases oe with _ | e0
    · have hro := openFile_none r env r2 env2 hof
      have hInv2 : Inv r2 ∧ r2.fileOpen = true := by
        rcases hro with ⟨hr2, hop⟩ | ⟨hop, hr2⟩
        · subst hr2; exact ⟨hInv, hop⟩
        · subst hr2; exact ⟨⟨le_refl 0, fun _ => rfl⟩, rfl⟩
      dsimp only at h
      rcases hrw : env2.readWorlds with _ | ⟨w, ws⟩ <;> rw [hrw] at h
      · simp at h
      dsimp only at h
      rcases hfr : fileRead w r2.offset.toNat cap with ⟨n0, bs0, e0'⟩
      rw [hfr] at h
      dsimp only at h
      by_cases he0 : e0' ≠ none ∧ e0' ≠ some Err.eof
      · rw [if_pos he0] at h
        simp at h
        obtain ⟨h1, h2, h3, h4, h5⟩ := h
        subst h1; subst h2; subst h3; subst h4; subst h5
        exact ⟨hInv2.1, fun hc => absurd hc he0.1, fun _ => ⟨rfl, rfl⟩⟩
      · rw [if_neg he0] at h
        by_cases hn : 0 < n0
        · rw [if_pos hn] at h
          simp at h
          obtain ⟨h1, h2, h3, h4, h5⟩ := h
          subst h1; subst h2; subst h3; subst h4; subst h5
          obtain ⟨hwf, hpos, hmin, hbs, _⟩ := fileRead_pos w r2.offset.toNat cap n0 bs0 e0' hfr hn
          have hnn : (0 : Int) ≤ r2.offset := hInv2.1.1
          refine ⟨?_, ?_, by simp⟩
          · constructor
            · simp only []
              omega
            · intro hcl
              simp at hcl
              rw [hcl] at hInv2
              simp at hInv2
          · intro _
            refine ⟨hn, ⟨w, ?_, hwf, r2.offset.toNat, hpos, hmin, hbs, ?_⟩⟩
            · rw [← hofe.2.1, hrw]
              exact List.mem_cons_self w ws
            · simp only []
              omega
        · rw [if_neg hn] at h
          have hwl := readWait_inl r2 _ n bs e r' env' h
          obtain ⟨hn0, hbs0, hr', ⟨e2, he2⟩, _⟩ := hwl
          subst hn0; subst hbs0; subst hr'; subst he2
          exact ⟨hInv2.1, fun hc => by simp at hc, fun _ => ⟨rfl, rfl⟩⟩
    · have := openFile_some r env e0 r2 env2 hof
      obtain ⟨hr2, _⟩ := this
      subst hr2
      simp at h
      obtain ⟨h1, h2, h3, h4, h5⟩ := h
      subst h1; subst h2; subst h3; subst h4; subst h5
      exact ⟨hInv, fun hc => by simp at hc, fun _ => ⟨rfl, rfl⟩⟩
  · rw [if_neg hlt] at h
    have hwl := readWait_inl r env n bs e r' env' h
    obtain ⟨hn0, hbs0, hr', ⟨e2, he2⟩, _⟩ := hwl
    subst hn0; subst hbs0; subst hr'; subst he2
    exact ⟨hInv, fun hc => by simp at hc, fun _ => ⟨rfl, rfl⟩⟩

theorem readData_inr (cap : Nat) (size : Int) (r : TailingReader) (env : Env)
    (r2 : TailingReader) (env2 : Env) (hInv : Inv r)
    (h : readData cap size r env = some (Sum.inr (r2, env2))) :
    Inv r2 ∧ env2.readWorlds <:+ env.readWorlds := by
  unfold readData at h
  have invClear : ∀ s : TailingReader, Inv (clearFile s) := by
    intro s; exact ⟨le_refl 0, fun _ => rfl⟩
  by_cases hlt : r.offset < size
  · rw [if_pos hlt] at h
    rcases hof : openFile r env with ⟨oe, r3, env3⟩
    rw [hof] at h
    have hofe := openFile_env r env
    rw [hof] at hofe
    simp at hofe
    rcases oe with _ | e0
    · have hro := openFile_none r env r3 env3 hof
      have hInv3 : Inv r3 := by
        rcases hro with ⟨hr3, _⟩ | ⟨_, hr3⟩
        · subst hr3; exact hInv
        · subst hr3; exact ⟨le_refl 0, fun _ => rfl⟩
      dsimp only at h
      rcases hrw : env3.readWorlds with _ | ⟨w, ws⟩ <;> rw [hrw] at h
      · simp at h
      dsimp only at h
      rcases hfr : fileRead w r3.offset.toNat cap with ⟨n0, bs0, e0'⟩
      rw [hfr] at h
      dsimp only at h
      by_cases he0 : e0' ≠ none ∧ e0' ≠ some Err.eof
      · rw [if_pos he0] at h; simp at h
      · rw [if_neg he0] at h
        by_cases hn : 0 < n0
        · rw [if_pos hn] at h; simp at h
        · rw [if_neg hn] at h
          have hwr := readWait_inr r3 _ r2 env2 h
          obtain ⟨hst, hrw2, _⟩ := hwr
          refine ⟨?_, ?_⟩
          · rcases hst with hr | hr <;> subst hr
            · exact hInv3
            · exact invClear _
          · simp at hrw2
            rw [hrw2, ← hofe.2.1, hrw]
            exact (List.suffix_cons w ws)
    · simp at h
  · rw [if_neg hlt] at h
    have hwr := readWait_inr r env r2 env2 h
    obtain ⟨hst, hrw2, _⟩ := hwr
    refine ⟨?_, by rw [hrw2]⟩
    rcases hst with hr | hr <;> subst hr
    · exact hInv
    · exact invClear _

theorem readIter_inl (cap : Nat) (r : TailingReader) (env : Env) (fuel : Nat)
    (n : Nat) (bs : List Nat) (e : Option Err) (r' : TailingReader) (env' : Env)
    (hInv : Inv r) (h : readIter cap r env fuel = some (Sum.inl (n, bs, e, r', env'))) :
    Inv r' ∧ (e = none → 0 < n ∧ DataOk cap env.readWorlds n bs r') ∧
      (e ≠ none → n = 0 ∧ bs = []) := by
  unfold readIter at h
  rcases hwf : waitForFile false r env fuel with _ | ⟨sz, we, r1, env1⟩ <;> rw [hwf] at h
  · simp at h
  have hspec := waitForFile_spec fuel false r env sz we r1 env1 hwf
  have hInv1 : Inv r1 := by
    rcases hspec.1 with hr | ⟨_, hr⟩ <;> subst hr
    · exact hInv
    · exact ⟨le_refl 0, fun _ => rfl⟩
  rcases we with _ | e1
  · -- size obtained with no error
    dsimp only at h
    by_cases htr : sz < r1.offset
    · rw [if_pos htr] at h
      rcases hcf : closeFile r1 env1 with ⟨ce, cr, cenv⟩
      have hcs := closeFile_state r1 env1
      have hce := closeFile_env r1 env1
      rw [hcf] at h hcs hce
      simp at hcs hce
      have hInvC : Inv cr := by
        by_cases hf : r1.fileOpen = true <;> simp [hf] at hcs <;> subst hcs
        · exact ⟨le_refl 0, fun _ => rfl⟩
        · exact hInv1
      by_cases hct : r1.options.CloseOnTruncate = true
      · rw [if_pos hct] at h
        simp at h
        obtain ⟨h1, h2, h3, h4, h5⟩ := h
        subst h1; subst h2; subst h3; subst h4; subst h5
        exact ⟨hInvC, fun hc => by simp at hc, fun _ => ⟨rfl, rfl⟩⟩
      · rw [if_neg hct] at h
        have := readData_inl cap sz cr cenv n bs e r' env' hInvC h
        refine ⟨this.1, fun he => ⟨(this.2.1 he).1, ?_⟩, this.2.2⟩
        have hd := (this.2.1 he).2
        have : cenv.readWorlds = env.readWorlds := by rw [hce.2.2.1, hspec.2.1]
        rwa [this] at hd
    · rw [if_neg htr] at h
      have := readData_inl cap sz r1 env1 n bs e r' env' hInv1 h
      refine ⟨this.1, fun he => ⟨(this.2.1 he).1, ?_⟩, this.2.2⟩
      have hd := (this.2.1 he).2
      rwa [hspec.2.1] at hd
  · -- waitForFile returned an error
    simp at h
    obtain ⟨h1, h2, h3, h4, h5⟩ := h
    subst h1; subst h2; subst h3; subst h4; subst h5
    exact ⟨hInv1, fun hc => by simp at hc, fun _ => ⟨rfl, rfl⟩⟩

theorem readIter_inr (cap : Nat) (r : TailingReader) (env : Env) (fuel : Nat)
    (r2 : TailingReader) (env2 : Env) (hInv : Inv r)
    (h : readIter cap r env fuel = some (Sum.inr (r2, env2))) :
    Inv r2 ∧ env2.readWorlds <:+ env.readWorlds := by
  unfold readIter at h
  rcases hwf : waitForFile false r env fuel with _ | ⟨sz, we, r1, env1⟩ <;> rw [hwf] at h
  · simp at h
  have hspec := waitForFile_spec fuel false r env sz we r1 env1 hwf
  have hInv1 : Inv r1 := by
    rcases hspec.1 with hr | ⟨_, hr⟩ <;> subst hr
    · exact hInv
    · exact ⟨le_refl 0, fun _ => rfl⟩
  rcases we with _ | e1
  · dsimp only at h
    by_cases htr : sz < r1.offset
    · rw [if_pos htr] at h
      rcases hcf : closeFile r1 env1 with ⟨ce, cr, cenv⟩
      have hcs := closeFile_state r1 env1
      have hce := closeFile_env r1 env1
      rw [hcf] at h hcs hce
      simp at hcs hce
      have hInvC : Inv cr := by
        by_cases hf : r1.fileOpen = true <;> simp [hf] at hcs <;> subst hcs
        · exact ⟨le_refl 0, fun _ => rfl⟩
        · exact hInv1
      by_cases hct : r1.options.CloseOnTruncate = true
      · rw [if_pos hct] at h
        simp at h
      · rw [if_neg hct] at h
        have := readData_inr cap sz cr cenv r2 env2 hInvC h
        refine ⟨this.1, ?_⟩
        have : env2.readWorlds <:+ cenv.readWorlds := this.2
        rwa [hce.2.2.1, hspec.2.1] at this
    · rw [if_neg htr] at h
      have := readData_inr cap sz r1 env1 r2 env2 hInv1 h
      refine ⟨this.1, ?_⟩
      have h2 : env2.readWorlds <:+ env1.readWorlds := this.2
      rwa [hspec.2.1] at h2
  · simp at h

theorem Read_shape : ∀ (fuel cap : Nat) (r : TailingReader) (env : Env) (n : Nat)
    (bs : List Nat) (e : Option Err) (r' : TailingReader) (env' : Env),
    Inv r → Read cap r env fuel = some (n, bs, e, r', env') →
    Inv r' ∧ (e = none → 0 < n ∧ DataOk cap env.readWorlds n bs r') ∧
      (e ≠ none → n = 0 ∧ bs = []) := by
  intro fuel
  induction fuel with
  | zero => intro cap r env n bs e r' env' _ h; simp [Read] at h
  | succ fuel ih =>
    intro cap r env n bs e r' env' hInv h
    rw [Read] at h
    rcases hit : readIter cap r env fuel with _ | ⟨out | ⟨r2, env2⟩⟩ <;> rw [hit] at h
    · simp at h
    · simp at h
      subst h
      exact readIter_inl cap r env fuel n bs e r' env' hInv hit
    · dsimp only at h
      have hstep := readIter_inr cap r env fuel r2 env2 hInv hit
      have := ih cap r2 env2 n bs e r' env' hstep.1 h
      refine ⟨this.1, fun he => ⟨(this.2.1 he).1, ?_⟩, this.2.2⟩
      exact DataOk_mono cap env2.readWorlds env.readWorlds n bs r' (this.2.1 he).2 hstep.2

/-- C1: every `Read` call returning a positive byte count `n` returns a
byte-exact copy of the observed file content in `[old, old + n)` where
`old` is the offset at the moment of the read, advances the offset by
exactly `n`, and returns no error; a zero-byte count with no error is never
returned (the error component is `none` exactly when the count is
positive). -/
theorem claim1_read_byte_exact (fuel cap : Nat) (r : TailingReader) (env : Env)
    (n : Nat) (bs : List Nat) (e : Option Err) (r' : TailingReader) (env' : Env)
    (hInv : Inv r) (h : Read cap r env fuel = some (n, bs, e, r', env')) :
    (e = none ↔ 0 < n) ∧
    (0 < n → e = none ∧ ∃ w, w ∈ env.readWorlds ∧ w.failure = false ∧
      ∃ old : Nat, old < w.content.length ∧ n = min cap (w.content.length - old) ∧
        bs = (w.content.drop old).take n ∧ r'.offset = (old : Int) + (n : Int)) := by
  have hs := Read_shape fuel cap r env n bs e r' env' hInv h
  have hpos : 0 < n → e = none := by
    intro hn
    by_contra hne
    have := (hs.2.2 hne).1
    omega
  constructor
  · constructor
    · intro he; exact (hs.2.1 he).1
    · exact hpos
  · intro hn
    refine ⟨hpos hn, ?_⟩
    exact (hs.2.1 (hpos hn)).2

/-- Witness for C1: the hypotheses of `claim1_read_byte_exact` hold on a
concrete run (a 13-byte file read into a 128-byte buffer) and the theorem
applies to it. -/
theorem claim1_witness :
    Inv c1r ∧ Read 128 c1r c1env 2 = some (13, c1bs, none, c1rOut, emptyEnv) ∧
    (((none : Option Err) = none ↔ 0 < 13) ∧
     (0 < 13 → (none : Option Err) = none ∧ ∃ w, w ∈ c1env.readWorlds ∧ w.failure = false ∧
       ∃ old : Nat, old < w.content.length ∧ 13 = min 128 (w.content.length - old) ∧
         c1bs = (w.content.drop old).take 13 ∧ c1rOut.offset = (old : Int) + (13 : Int))) :=
  ⟨by decide, by decide,
    claim1_read_byte_exact 2 128 c1r c1env 13 c1bs none c1rOut emptyEnv (by decide) (by decide)⟩

/-- C10: every `Read` return carrying a non-`none` error or status value
(`eof`, timeouts, access errors, notification errors) has byte count 0 (and
writes no bytes); a strictly positive count comes only with a `none`
error. -/
theorem claim10_error_zero_count (fuel cap : Nat) (r : TailingReader) (env : Env)
    (n : Nat) (bs : List Nat) (e : Option Err) (r' : TailingReader) (env' : Env)
    (hInv : Inv r) (h : Read cap r env fuel = some (n, bs, e, r', env')) :
    (e ≠ none → n = 0 ∧ bs = []) ∧ (0 < n → e = none) := by
  have hs := Read_shape fuel cap r env n bs e r' env' hInv h
  refine ⟨hs.2.2, ?_⟩
  intro hn
  by_contra hne
  have := (hs.2.2 hne).1
  omega

/-- Witness for C10: a concrete `Read` run ending in `idleTimeout` to which
the theorem applies, returning 0 bytes. -/
theorem claim10_witness :
    Inv c10r ∧
    Read 8 c10r { emptyEnv with stats := [some 0], watch := [WatchItem.timeout] } 2 =
      some (0, [], some Err.idleTimeout, c10r, emptyEnv) ∧
    ((some Err.idleTimeout ≠ (none : Option Err) → (0 : Nat) = 0 ∧ ([] : List Nat) = []) ∧
     (0 < (0 : Nat) → some Err.idleTimeout = (none : Option Err))) := by
  refine ⟨by decide, by decide, ?_⟩
  exact claim10_error_zero_count 2 8 c10r
    { emptyEnv with stats := [some 0], watch := [WatchItem.timeout] } 0 []
    (some Err.idleTimeout) c10r emptyEnv (by decide) (by decide)

/-- C7: when `waitForFile` (and hence the public `WaitForFile`) returns the
`waitTimeout` error, or the idle wait of `Read` (`readWait`, the only
blocking point of `Read`'s loop tail) returns the `idleTimeout` error, the
engine state — offset and file handle included — is exactly the state with
which the blocking wait was entered, so the caller can retry. -/
theorem claim7_timeout_frame :
    (∀ (fuel : Nat) (force : Bool) (r : TailingReader) (env : Env) (sz : Int)
       (r' : TailingReader) (env' : Env),
       waitForFile force r env fuel = some (sz, some Err.waitTimeout, r', env') → r' = r) ∧
    (∀ (fuel : Nat) (r : TailingReader) (env : Env) (r' : TailingReader) (env' : Env),
       WaitForFile r env fuel = some (some Err.waitTimeout, r', env') → r' = r) ∧
    (∀ (r : TailingReader) (env : Env) (n : Nat) (bs : List Nat) (r' : TailingReader)
       (env' : Env),
       readWait r env = some (Sum.inl (n, bs, some Err.idleTimeout, r', env')) → r' = r) := by
  have base : ∀ (fuel : Nat) (force : Bool) (r : TailingReader) (env : Env) (sz : Int)
      (r' : TailingReader) (env' : Env),
      waitForFile force r env fuel = some (sz, some Err.waitTimeout, r', env') → r' = r := by
    intro fuel force r env sz r' env' h
    have := (waitForFile_spec fuel force r env sz (some Err.waitTimeout) r' env' h).1
    rcases this with hr | ⟨he, _⟩
    · exact hr
    · simp at he
  refine ⟨base, ?_, ?_⟩
  · intro fuel r env r' env' h
    unfold WaitForFile at h
    rcases hwf : waitForFile true r env fuel with _ | ⟨sz, e, r2, env2⟩ <;> rw [hwf] at h
    · simp at h
    · simp at h
      obtain ⟨h1, h2, h3⟩ := h
      subst h1; subst h2; subst h3
      exact base fuel true r env sz _ _ hwf
  · intro r env n bs r' env' h
    exact (readWait_inl r env n bs (some Err.idleTimeout) r' env' h).2.2.1

/-- Witness for C7: concrete timing-out runs of `waitForFile`,
`WaitForFile` and `readWait` to which the three parts of the theorem
apply; in each the returned state is the input state. -/
theorem claim7_witness :
    waitForFile true c7r c7env 1 = some (0, some Err.waitTimeout, c7r, emptyEnv) ∧
    WaitForFile c7r c7env 1 = some (some Err.waitTimeout, c7r, emptyEnv) ∧
    readWait c10r { emptyEnv with watch := [WatchItem.timeout] } =
      some (Sum.inl (0, [], some Err.idleTimeout, c10r, emptyEnv)) ∧
    c7r = c7r ∧ c10r = c10r := by
  refine ⟨by decide, by decide, by decide, ?_, ?_⟩
  · exact claim7_timeout_frame.1 1 true c7r c7env 0 c7r emptyEnv (by decide)
  · exact claim7_timeout_frame.2.2 c10r { emptyEnv with watch := [WatchItem.timeout] }
      0 [] c10r emptyEnv (by decide)

/-- C9: the engine invariants: a freshly constructed reader satisfies them;
opening the handle from the closed state resets the offset to 0; closing
always leaves the handle absent with offset 0; and construction, `Read`,
`WaitForFile` and `Close` all preserve the invariant that the offset is
non-negative and is 0 whenever the handle is absent. -/
theorem claim9_invariants :
    (∀ (fp : String) (opts : List (Options → Options)), Inv (NewTailingReader fp opts)) ∧
    (∀ (r : TailingReader) (env : Env) (r' : TailingReader) (env' : Env),
       r.fileOpen = false → openFile r env = (none, r', env') →
       r'.fileOpen = true ∧ r'.offset = 0) ∧
    (∀ (r : TailingReader) (env : Env), Inv r →
       (closeFile r env).2.1.fileOpen = false ∧ (closeFile r env).2.1.offset = 0) ∧
    (∀ (fuel cap : Nat) (r : TailingReader) (env : Env) (n : Nat) (bs : List Nat)
       (e : Option Err) (r' : TailingReader) (env' : Env),
       Inv r → Read cap r env fuel = some (n, bs, e, r', env') → Inv r') ∧
    (∀ (fuel : Nat) (r : TailingReader) (env : Env) (e : Option Err)
       (r' : TailingReader) (env' : Env),
       Inv r → WaitForFile r env fuel = some (e, r', env') → Inv r') ∧
    (∀ (r : TailingReader) (env : Env), Inv r → Inv (Close r env).2.1) := by
  refine ⟨?_, ?_, ?_, ?_, ?_, ?_⟩
  · intro fp opts
    exact ⟨le_refl 0, fun _ => rfl⟩
  · intro r env r' env' hcl h
    rcases openFile_none r env r' env' h with ⟨_, hop⟩ | ⟨_, hr⟩
    · rw [hop] at hcl; simp at hcl
    · subst hr; exact ⟨rfl, rfl⟩
  · intro r env hInv
    have hs := closeFile_state r env
    by_cases hf : r.fileOpen = true <;> simp [hf] at hs <;> rw [hs]
    · exact ⟨rfl, rfl⟩
    · exact ⟨by simpa using hf, hInv.2 (by simpa using hf)⟩
  · intro fuel cap r env n bs e r' env' hInv h
    exact (Read_shape fuel cap r env n bs e r' env' hInv h).1
  · intro fuel r env e r' env' hInv h
    unfold WaitForFile at h
    rcases hwf : waitForFile true r env fuel with _ | ⟨sz, e2, r2, env2⟩ <;> rw [hwf] at h
    · simp at h
    · simp at h
      obtain ⟨_, h2, _⟩ := h
      subst h2
      rcases (waitForFile_spec fuel true r env sz e2 r2 env2 hwf).1 with hr | ⟨_, hr⟩ <;>
        subst hr
      · exact hInv
      · exact ⟨le_refl 0, fun _ => rfl⟩
  · intro r env hInv
    unfold Close
    by_cases hw : (popBool env.watcherCloseErrs).1 = true <;> simp [hw]
    · exact ⟨hInv.1, hInv.2⟩
    · have hs := closeFile_state { r with watcherOpen := false }
        { env with watcherCloseErrs := (popBool env.watcherCloseErrs).2 }
      rw [hs]
      by_cases hf : r.fileOpen = true <;> simp [hf]
      · exact ⟨le_refl 0, fun _ => rfl⟩
      · exact ⟨hInv.1, fun _ => hInv.2 (by simpa using hf)⟩

/-- Witness for C9: the invariant-preservation parts applied to concrete
runs (fresh construction, an open, a close, a full `Read`, a timed-out
`WaitForFile` and a `Close`). -/
theorem claim9_witness :
    (c1r.fileOpen = false ∧ openFile c1r c1env =
      (none, { c1r with fileOpen := true, offset := 0 },
        { c1env with opens := [] })) ∧
    Inv c1r ∧ Inv c1rOut ∧
    (Inv (NewTailingReader "f" []) ∧
     ({ c1r with fileOpen := true, offset := 0 } : TailingReader).fileOpen = true ∧
     ({ c1r with fileOpen := true, offset := 0 } : TailingReader).offset = 0 ∧
     ((closeFile c1rOut emptyEnv).2.1.fileOpen = false ∧
       (closeFile c1rOut emptyEnv).2.1.offset = 0) ∧
     Inv c1rOut ∧ Inv c7r ∧ Inv (Close c1rOut emptyEnv).2.1) := by
  refine ⟨⟨by decide, by decide⟩, by decide, by decide, ?_, ?_, ?_, ?_, ?_, ?_, ?_⟩
  · exact claim9_invariants.1 "f" []
  · exact (claim9_invariants.2.1 c1r c1env { c1r with fileOpen := true, offset := 0 }
      { c1env with opens := [] } (by decide) (by decide)).1
  · exact (claim9_invariants.2.1 c1r c1env { c1r with fileOpen := true, offset := 0 }
      { c1env with opens := [] } (by decide) (by decide)).2
  · exact claim9_invariants.2.2.1 c1rOut emptyEnv (by decide)
  · exact claim9_invariants.2.2.2.1 2 128 c1r c1env 13 c1bs none c1rOut emptyEnv
      (by decide) (by decide)
  · exact claim9_invariants.2.2.2.2.1 1 c7r c7env (some Err.waitTimeout) c7r emptyEnv
      (by decide) (by decide)
  · exact claim9_invariants.2.2.2.2.2 c1rOut emptyEnv (by decide)

/-- C5: a `Read` call that finds no new data (offset equal to the observed
size) and whose idle wait ends with the timer firing returns 0 bytes with
`idleTimeout` when `TreatTimeoutsAsEOF` is unset and with `eof`
(EndOfStream) when it is set; the engine state is unchanged. -/
theorem claim5_idle_timeout (fuel cap : Nat) (r : TailingReader) (env : Env)
    (size : Int) (srest : List (Option Int)) (op0 : Nat) (wrest : List WatchItem)
    (hstats : env.stats = some size :: srest)
    (hoff : r.offset = size)
    (hwfe : waitForEventWithTimeout r.filePath idleMask r.options.IdleTimeout env.watch =
      some ((some Err.timeout, op0), wrest)) :
    Read cap r env (fuel + 2) =
      some (0, [],
        (if r.options.TreatTimeoutsAsEOF then some Err.eof else some Err.idleTimeout),
        r, { env with stats := srest, watch := wrest }) := by
  have hwf : waitForFile false r env (fuel + 1) =
      some (size, none, r, { env with stats := srest }) := by
    have hn : fuel + 1 = Nat.succ fuel := rfl
    rw [hn, waitForFile, hstats]
  have hn2 : fuel + 2 = Nat.succ (fuel + 1) := rfl
  rw [hn2, Read, readIter, hwf]
  dsimp only
  rw [if_neg (by omega : ¬size < r.offset)]
  unfold readData
  rw [if_neg (by omega : ¬r.offset < size)]
  unfold readWait
  dsimp only
  rw [hwfe]
  dsimp only
  rw [if_pos rfl]
  by_cases htr : r.options.TreatTimeoutsAsEOF = true <;> simp [htr]

/-- Witness for C5: a concrete no-data run whose idle wait times out; the
theorem applies and yields `idleTimeout` (flag unset). -/
theorem claim5_witness :
    ({ emptyEnv with stats := [some 0], watch := [WatchItem.timeout] } : Env).stats =
      some 0 :: [] ∧
    c10r.offset = (0 : Int) ∧
    waitForEventWithTimeout c10r.filePath idleMask c10r.options.IdleTimeout
      ({ emptyEnv with stats := [some 0], watch := [WatchItem.timeout] } : Env).watch =
      some ((some Err.timeout, 0), []) ∧
    Read 8 c10r { emptyEnv with stats := [some 0], watch := [WatchItem.timeout] } 2 =
      some (0, [],
        (if c10r.options.TreatTimeoutsAsEOF then some Err.eof else some Err.idleTimeout),
        c10r, { emptyEnv with stats := [], watch := [] }) := by
  refine ⟨by decide, by decide, by decide, ?_⟩
  exact claim5_idle_timeout 0 8 c10r
    { emptyEnv with stats := [some 0], watch := [WatchItem.timeout] } 0 [] 0 []
    (by decide) (by decide) (by decide)

/-- Counterexample for C2: on a truncation with `CloseOnTruncate` unset and
a positive new size, the reopen-and-read happens inside the very same loop
iteration — `readIter` returns the new file's data directly (`Sum.inl`)
instead of continuing the loop (`Sum.inr`), and the whole `Read` call
consumes only the single stat observation — contradicting the claim that
the handle is reopened and read by a subsequent loop iteration. -/
theorem claim2_counterexample :
    readIter 128 c2r c2env 1 =
      some (Sum.inl (5, [1, 2, 3, 4, 5], none, { c2r with offset := 5 }, emptyEnv)) ∧
    Read 128 c2r c2env 2 =
      some (5, [1, 2, 3, 4, 5], none, { c2r with offset := 5 }, emptyEnv) ∧
    c2env.stats = [some 5] := by
  refine ⟨by decide, by decide, by decide⟩

/-- C2 amended: a `Read` call entered with offset greater than the observed
size (truncation) releases the file handle; with `CloseOnTruncate` set it
returns 0 bytes and `eof` (EndOfStream); otherwise the same call continues
against the new, smaller file — for a positive new size the very same loop
pass reopens the handle with offset reset to 0 and returns bytes taken from
the start of the new content (no second stat happens before the read). -/
theorem claim2_truncation (fuel cap : Nat) (r : TailingReader) (env : Env)
    (size : Int) (srest : List (Option Int))
    (hstats : env.stats = some size :: srest)
    (htr : size < r.offset) (hopen : r.fileOpen = true) :
    (r.options.CloseOnTruncate = true →
      Read cap r env (fuel + 2) =
        some (0, [], some Err.eof, clearFile r,
          { env with stats := srest, fileCloseErrs := (popBool env.fileCloseErrs).2 })) ∧
    (∀ (w : ReadWorld) (wrest : List ReadWorld) (orest : List Bool),
      r.options.CloseOnTruncate = false →
      env.opens = false :: orest →
      env.readWorlds = w :: wrest →
      w.failure = false → 0 < size → 0 < cap → 0 < w.content.length →
      Read cap r env (fuel + 2) =
        some (min cap w.content.length, w.content.take (min cap w.content.length), none,
          { r with fileOpen := true, offset := (min cap w.content.length : Int) },
          { env with
            stats := srest, opens := orest, readWorlds := wrest,
            fileCloseErrs := (popBool env.fileCloseErrs).2 })) := by
  have hwfp : waitForFile false r env (fuel + 1) =
      some (size, none, r, { env with stats := srest }) := by
    have hn : fuel + 1 = Nat.succ fuel := rfl
    rw [hn, waitForFile, hstats]
  have hn2 : fuel + 2 = Nat.succ (fuel + 1) := rfl
  have hcr : closeFile r { env with stats := srest } =
      ((if (popBool env.fileCloseErrs).1 then some Err.closeFailure else none),
        clearFile r,
        { env with stats := srest, fileCloseErrs := (popBool env.fileCloseErrs).2 }) := by
    unfold closeFile clearFile
    simp [hopen]
  constructor
  · intro hct
    rw [hn2, Read, readIter, hwfp]
    try dsimp only
    rw [if_pos htr, hcr]
    try dsimp only
    simp [hct, clearFile]
  · intro w wrest orest hct hopns hrws hwf0 hsz hcap hlen
    rw [hn2, Read, readIter, hwfp]
    try dsimp only
    rw [if_pos htr, hcr]
    try dsimp only
    rw [hct]
    simp only [Bool.false_eq_true, if_false]
    unfold readData
    rw [if_pos (by simp [clearFile]; omega : (clearFile r).offset < size)]
    unfold openFile
    simp only [clearFile]
    try dsimp only
    rw [hopns]
    dsimp only [popBool]
    simp only [Bool.false_eq_true, if_false]
    try dsimp only
    rw [hrws]
    try dsimp only
    unfold fileRead
    rw [hwf0]
    simp only [Bool.false_eq_true, if_false]
    rw [if_neg (by omega : ¬cap = 0)]
    rw [if_pos (by simp; omega : Int.toNat 0 < w.content.length)]
    try dsimp only
    rw [if_neg (by simp)]
    rw [if_pos (by simp; omega : 0 < min cap (w.content.length - Int.toNat 0))]
    try dsimp only
    simp

/-- Witness for C2: a concrete truncation (offset 10, new size 5).  With
`CloseOnTruncate` the call returns 0 bytes and `eof` with the handle
released; without it the same call reopens the file and returns the 5 bytes
of the new content from its start. -/
theorem claim2_witness :
    (c2env.stats = some 5 :: [] ∧ (5 : Int) < c2r.offset ∧ c2r.fileOpen = true ∧
      c2rT.options.CloseOnTruncate = true ∧ c2r.options.CloseOnTruncate = false) ∧
    Read 128 c2rT c2env 2 = some (0, [], some Err.eof, clearFile c2rT,
      { c2env with stats := [], fileCloseErrs := [] }) ∧
    Read 128 c2r c2env 2 = some (5, [1, 2, 3, 4, 5], none,
      { c2r with fileOpen := true, offset := 5 },
      { c2env with stats := [], opens := [], readWorlds := [], fileCloseErrs := [] }) := by
  refine ⟨by decide, ?_, ?_⟩
  · exact (claim2_truncation 0 128 c2rT c2env 5 [] (by decide) (by decide) (by decide)).1
      (by decide)
  · exact (claim2_truncation 0 128 c2r c2env 5 [] (by decide) (by decide) (by decide)).2
      ⟨[1, 2, 3, 4, 5], false⟩ [] [] (by decide) (by decide) (by decide) (by decide)
      (by decide) (by decide) (by decide)

/-- Counterexample for C8: when the notification-connection close fails
(`watcher.Close` returns an error), `Close` returns that error without
closing the file handle — the handle is still open afterwards,
contradicting the claim that after `Close` returns (with or without error)
both resources have been closed. -/
theorem claim8_counterexample :
    Close c2r { emptyEnv with watcherCloseErrs := [true] } =
      (some Err.notification, { c2r with watcherOpen := false }, emptyEnv) ∧
    ({ c2r with watcherOpen := false } : TailingReader).fileOpen = true := by
  decide

/-- C8 amended: `Close` always closes (and clears) the notification
connection; when that close succeeds it also releases the file handle —
the handle is cleared even if the underlying file close itself reports an
error — but when the notification-connection close fails, `Close` returns
that error immediately and the file handle is left untouched. -/
theorem claim8_close (r : TailingReader) (env : Env) :
    ((popBool env.watcherCloseErrs).1 = false →
      (Close r env).2.1.watcherOpen = false ∧ (Close r env).2.1.fileOpen = false) ∧
    ((popBool env.watcherCloseErrs).1 = true →
      (Close r env).1 = some Err.notification ∧
      (Close r env).2.1.watcherOpen = false ∧
      (Close r env).2.1.fileOpen = r.fileOpen ∧
      (Close r env).2.1.offset = r.offset) := by
  constructor
  · intro hw
    by_cases hf : r.fileOpen = true <;> simp [Close, closeFile, hw, hf]
  · intro hw
    simp [Close, hw]

/-- Witness for C8 amended: both branches applied concretely — a failing
watcher close leaves the open handle in place, a successful one closes
everything. -/
theorem claim8_witness :
    ((popBool ({ emptyEnv with watcherCloseErrs := [true] } : Env).watcherCloseErrs).1 = true ∧
      (popBool emptyEnv.watcherCloseErrs).1 = false) ∧
    ((Close c2r emptyEnv).2.1.watcherOpen = false ∧ (Close c2r emptyEnv).2.1.fileOpen = false) ∧
    ((Close c2r { emptyEnv with watcherCloseErrs := [true] }).1 = some Err.notification ∧
      (Close c2r { emptyEnv with watcherCloseErrs := [true] }).2.1.watcherOpen = false ∧
      (Close c2r { emptyEnv with watcherCloseErrs := [true] }).2.1.fileOpen = c2r.fileOpen ∧
      (Close c2r { emptyEnv with watcherCloseErrs := [true] }).2.1.offset = c2r.offset) := by
  refine ⟨by decide, ?_, ?_⟩
  · exact (claim8_close c2r emptyEnv).1 (by decide)
  · exact (claim8_close c2r { emptyEnv with watcherCloseErrs := [true] }).2 (by decide)

/-- Counterexample for C6: during `Read`'s idle wait a creation event on
the exact watched path does not unblock the wait — the wait still times
out with `idleTimeout` — contradicting the claim that the blocking wait
accepts the event kinds {creation, write, removal, rename,
attribute-change}.  The idle mask has no creation bit. -/
theorem claim6_counterexample :
    Read 8 c10r
      { emptyEnv with
        stats := [some 0],
        watch := [WatchItem.event Create "f", WatchItem.timeout] } 2 =
      some (0, [], some Err.idleTimeout, c10r, emptyEnv) ∧
    c10r.filePath = "f" ∧ idleMask &&& Create = 0 := by
  decide

/-- C6 amended: the idle wait of `Read` listens for exactly the event kinds
{write, removal, rename, attribute-change} — creation events are skipped
even on the exact path (creation is only waited for in the wait-for-file
phase) — and an event is accepted only when its operation bits all lie in
that mask and its path equals the watched path exactly; every sibling-file
event is skipped without unblocking the wait. -/
theorem claim6_event_filter :
    (∀ (fp : String) (t : Int) (op : Nat) (name : String) (rest : List WatchItem),
       name ≠ fp →
       waitForEventWithTimeout fp idleMask t (WatchItem.event op name :: rest) =
         waitForEventWithTimeout fp idleMask t rest) ∧
    (∀ (fp : String) (t : Int) (rest : List WatchItem),
       waitForEventWithTimeout fp idleMask t (WatchItem.event Create fp :: rest) =
         waitForEventWithTimeout fp idleMask t rest) ∧
    (∀ (fp : String) (t : Int) (items rest : List WatchItem) (op : Nat),
       waitForEventWithTimeout fp idleMask t items = some ((none, op), rest) →
       idleMask &&& op = op) ∧
    (∀ (fp : String) (t : Int) (op : Nat) (rest : List WatchItem),
       idleMask &&& op = op →
       waitForEventWithTimeout fp idleMask t (WatchItem.event op fp :: rest) =
         some ((none, op), rest)) := by
  refine ⟨?_, ?_, ?_, ?_⟩
  · intro fp t op name rest h
    exact wfe_skip_name fp idleMask t op name rest h
  · intro fp t rest
    exact wfe_skip_op fp idleMask t Create fp rest (by decide)
  · intro fp t items rest op h
    exact wfe_accepted_mask fp idleMask t items rest op h
  · intro fp t op rest h
    exact wfe_accept fp idleMask t op rest h

/-- Witness for C6 amended: concrete instances — a sibling event is
skipped, a creation event on the exact path is skipped, the accepted
operation of a concrete wait lies in the idle mask, and a write event on
the exact path is accepted. -/
theorem claim6_witness :
    ("g" : String) ≠ "f" ∧ idleMask &&& Write = Write ∧
    waitForEventWithTimeout "f" idleMask 5 [WatchItem.event Write "g"] =
      waitForEventWithTimeout "f" idleMask 5 [] ∧
    waitForEventWithTimeout "f" idleMask 5 [WatchItem.event Create "f"] =
      waitForEventWithTimeout "f" idleMask 5 [] ∧
    waitForEventWithTimeout "f" idleMask 5 [WatchItem.event Write "f"] =
      some ((none, Write), []) ∧
    idleMask &&& Write = Write := by
  refine ⟨by decide, by decide, ?_, ?_, ?_, ?_⟩
  · exact claim6_event_filter.1 "f" 5 Write "g" [] (by decide)
  · exact claim6_event_filter.2.1 "f" 5 []
  · exact claim6_event_filter.2.2.2 "f" 5 Write [] (by decide)
  · exact claim6_event_filter.2.2.1 "f" 5 [WatchItem.event Write "f"] [] Write (by decide)

theorem closeFile_setWaitFlag (r : TailingReader) (env : Env) (b : Bool) :
    closeFile (setWaitFlag r b) env =
      ((closeFile r env).1, setWaitFlag (closeFile r env).2.1 b, (closeFile r env).2.2) := by
  unfold closeFile setWaitFlag
  by_cases hf : r.fileOpen = true <;> simp [hf]

theorem waitForFile_flag (fuel : Nat) :
    ∀ (r : TailingReader) (env : Env) (b : Bool),
    waitForFile true (setWaitFlag r b) env fuel =
      Option.map (fun q => (q.1, q.2.1, setWaitFlag q.2.2.1 b, q.2.2.2))
        (waitForFile true r env fuel) := by
  induction fuel with
  | zero => intro r env b; simp [waitForFile]
  | succ fuel ih =>
    intro r env b
    rw [waitForFile, waitForFile]
    rcases hstats : env.stats with _ | ⟨res, rest⟩
    · simp
    rcases res with _ | size
    · dsimp only
      rw [show (!(setWaitFlag r b).options.WaitForFile && !true) = false by simp,
        show (!r.options.WaitForFile && !true) = false by simp]
      simp only [Bool.false_eq_true, if_false]
      rw [show (setWaitFlag r b).fileOpen = r.fileOpen from rfl,
        show (setWaitFlag r b).options.CloseOnDelete = r.options.CloseOnDelete from rfl]
      by_cases hd : (r.fileOpen && r.options.CloseOnDelete) = true
      · rw [if_pos hd, if_pos hd]
        rw [closeFile_setWaitFlag]
        simp
      · rw [if_neg hd, if_neg hd]
        rw [show (setWaitFlag r b).filePath = r.filePath from rfl,
          show (setWaitFlag r b).options.WaitForFileTimeout =
            r.options.WaitForFileTimeout from rfl]
        rcases hwfe : waitForEventWithTimeout r.filePath Create r.options.WaitForFileTimeout
            env.watch with _ | ⟨⟨e0, op0⟩, watch2⟩
        · simp
        rcases e0 with _ | e1
        · dsimp only
          exact ih r _ b
        · dsimp only
          rw [show (setWaitFlag r b).options.TreatTimeoutsAsEOF =
            r.options.TreatTimeoutsAsEOF from rfl]
          by_cases ht : e1 = Err.timeout
          · rw [if_pos ht, if_pos ht]
            by_cases htr : r.options.TreatTimeoutsAsEOF = true <;> simp [htr]
          · rw [if_neg ht, if_neg ht]
            simp
    · simp

/-- Counterexample for C4: the public `WaitForFile` does not return the
file's size.  On two environments in which the file exists with different
sizes (5 and 7) the call returns literally identical values — success with
no size in it — so no conclusion about the size can be drawn from its
return value, contradicting "on success returns the file's current
size". -/
theorem claim4_counterexample :
    WaitForFile c1r { emptyEnv with stats := [some 5] } 1 =
      WaitForFile c1r { emptyEnv with stats := [some 7] } 1 ∧
    WaitForFile c1r { emptyEnv with stats := [some 5] } 1 = some (none, c1r, emptyEnv) := by
  decide

/-- C4 amended: `WaitForFile` forces a blocking wait for the file to exist
whose behaviour is independent of the `WaitForFile` option's value; on
success it returns no error — the size observed by the internal wait
routine is discarded by the public method; and when the existence wait
times out it fails with `waitTimeout` when `TreatTimeoutsAsEOF` is unset
and signals `eof` (EndOfStream) when it is set, honoring
`WaitForFileTimeout` (the timer can only fire when that timeout is
positive). -/
theorem claim4_wait_for_file :
    (∀ (fuel : Nat) (r : TailingReader) (env : Env) (b : Bool),
       waitForFile true (setWaitFlag r b) env fuel =
         Option.map (fun q => (q.1, q.2.1, setWaitFlag q.2.2.1 b, q.2.2.2))
           (waitForFile true r env fuel)) ∧
    (∀ (fuel : Nat) (r : TailingReader) (env : Env) (size : Int) (srest : List (Option Int)),
       env.stats = some size :: srest →
       waitForFile true r env (fuel + 1) = some (size, none, r, { env with stats := srest }) ∧
       WaitForFile r env (fuel + 1) = some (none, r, { env with stats := srest })) ∧
    (∀ (fuel : Nat) (r : TailingReader) (env : Env) (srest : List (Option Int)) (op0 : Nat)
       (wrest : List WatchItem),
       env.stats = none :: srest → r.fileOpen = false →
       waitForEventWithTimeout r.filePath Create r.options.WaitForFileTimeout env.watch =
         some ((some Err.timeout, op0), wrest) →
       WaitForFile r env (fuel + 1) =
         some ((if r.options.TreatTimeoutsAsEOF then some Err.eof else some Err.waitTimeout),
           r, { env with stats := srest, watch := wrest })) := by
  refine ⟨waitForFile_flag, ?_, ?_⟩
  · intro fuel r env size srest hstats
    have hwf : waitForFile true r env (fuel + 1) =
        some (size, none, r, { env with stats := srest }) := by
      have hn : fuel + 1 = Nat.succ fuel := rfl
      rw [hn, waitForFile, hstats]
    refine ⟨hwf, ?_⟩
    unfold WaitForFile
    rw [hwf]
  · intro fuel r env srest op0 wrest hstats hfo hwfe
    have hwf : waitForFile true r env (fuel + 1) =
        some (0, (if r.options.TreatTimeoutsAsEOF then some Err.eof else some Err.waitTimeout),
          r, { env with stats := srest, watch := wrest }) := by
      have hn : fuel + 1 = Nat.succ fuel := rfl
      rw [hn, waitForFile, hstats]
      dsimp only
      rw [show (!r.options.WaitForFile && !true) = false by simp]
      simp only [Bool.false_eq_true, if_false]
      rw [hfo]
      simp only [Bool.false_and, Bool.false_eq_true, if_false]
      rw [hwfe]
      dsimp only
      rw [if_pos rfl]
      by_cases htr : r.options.TreatTimeoutsAsEOF = true <;> simp [htr]
    unfold WaitForFile
    rw [hwf]

/-- Witness for C4 amended: the three parts applied at concrete inputs —
flag independence on a concrete run, a successful existence check, and a
timed-out forced wait returning `waitTimeout`. -/
theorem claim4_witness :
    waitForFile true (setWaitFlag c1r false) { emptyEnv with stats := [some 5] } 1 =
      Option.map (fun q => (q.1, q.2.1, setWaitFlag q.2.2.1 false, q.2.2.2))
        (waitForFile true c1r { emptyEnv with stats := [some 5] } 1) ∧
    ({ emptyEnv with stats := [some 5] } : Env).stats = some 5 :: [] ∧
    WaitForFile c1r { emptyEnv with stats := [some 5] } 1 = some (none, c1r, emptyEnv) ∧
    (c7env.stats = none :: [] ∧ c7r.fileOpen = false) ∧
    WaitForFile c7r c7env 1 =
      some ((if c7r.options.TreatTimeoutsAsEOF then some Err.eof else some Err.waitTimeout),
        c7r, emptyEnv) := by
  refine ⟨?_, by decide, ?_, by decide, ?_⟩
  · exact claim4_wait_for_file.1 1 c1r { emptyEnv with stats := [some 5] } false
  · exact (claim4_wait_for_file.2.1 0 c1r { emptyEnv with stats := [some 5] } 5 []
      (by decide)).2
  · exact claim4_wait_for_file.2.2 0 c7r c7env [] 0 [] (by decide) (by decide) (by decide)

/-- Counterexample for C3.  First run: `waitForFile` is false, the handle
is open and `CloseOnDelete` is true, the file is absent — the claim says
this is treated as a deletion (EndOfStream), but `Read` returns the
`fileAccess` error (the no-wait check precedes the open-handle check).
Second run: `waitForFile` is true, the handle is open, `CloseOnDelete` is
false, the file disappears and reappears — the claim says the handle is
released before continuing, but the run succeeds with the original handle
still open: `os.Open` would have failed (`opens = [true]` is never
consumed) and the returned state keeps `fileOpen = true` with the old
offset advanced. -/
theorem claim3_counterexample :
    (Read 8 c3rA { emptyEnv with stats := [none] } 2 =
        some (0, [], some Err.fileAccess, c3rA, emptyEnv) ∧
      some Err.fileAccess ≠ some Err.eof) ∧
    (Read 8 c3rB c3envB 3 =
        some (4, [9, 9, 9, 9], none, { c3rB with offset := 7 },
          { emptyEnv with opens := [true] }) ∧
      c3rB.fileOpen = true ∧ ({ c3rB with offset := 7 } : TailingReader).fileOpen = true) := by
  refine ⟨⟨by decide, by decide⟩, ⟨by decide, by decide, by decide⟩⟩

/-- C3 amended: when `Read` finds the target file absent: if `waitForFile`
is false it immediately fails with the `fileAccess` error regardless of
whether the handle was previously open; otherwise, if the handle was
previously open and `CloseOnDelete` is true, the handle is released and
`Read` signals `eof` (EndOfStream); otherwise the engine keeps the handle
open (it is not released on this path) and blocks waiting for a creation
event, after which it re-stats the file and continues with the handle
unchanged. -/
theorem claim3_absent_file :
    (∀ (fuel cap : Nat) (r : TailingReader) (env : Env) (srest : List (Option Int)),
       r.options.WaitForFile = false → env.stats = none :: srest →
       Read cap r env (fuel + 2) =
         some (0, [], some Err.fileAccess, r, { env with stats := srest })) ∧
    (∀ (fuel cap : Nat) (r : TailingReader) (env : Env) (srest : List (Option Int)),
       r.options.WaitForFile = true → r.fileOpen = true → r.options.CloseOnDelete = true →
       env.stats = none :: srest →
       Read cap r env (fuel + 2) =
         some (0, [], some Err.eof, clearFile r,
           { env with stats := srest, fileCloseErrs := (popBool env.fileCloseErrs).2 })) ∧
    (∀ (fuel : Nat) (r : TailingReader) (env : Env) (size : Int) (srest : List (Option Int))
       (op0 : Nat) (wrest : List WatchItem),
       r.options.WaitForFile = true → r.fileOpen = true → r.options.CloseOnDelete = false →
       env.stats = none :: some size :: srest →
       waitForEventWithTimeout r.filePath Create r.options.WaitForFileTimeout env.watch =
         some ((none, op0), wrest) →
       waitForFile false r env (fuel + 2) =
         some (size, none, r, { env with stats := srest, watch := wrest })) := by
  refine ⟨?_, ?_, ?_⟩
  · intro fuel cap r env srest hw hstats
    have hwf : waitForFile false r env (fuel + 1) =
        some (0, some Err.fileAccess, r, { env with stats := srest }) := by
      have hn : fuel + 1 = Nat.succ fuel := rfl
      rw [hn, waitForFile, hstats]
      dsimp only
      rw [hw]
      simp
    have hn2 : fuel + 2 = Nat.succ (fuel + 1) := rfl
    rw [hn2, Read, readIter, hwf]
  · intro fuel cap r env srest hw hfo hcd hstats
    have hwf : waitForFile false r env (fuel + 1) =
        some (0, some Err.eof, clearFile r,
          { env with stats := srest, fileCloseErrs := (popBool env.fileCloseErrs).2 }) := by
      have hn : fuel + 1 = Nat.succ fuel := rfl
      rw [hn, waitForFile, hstats]
      dsimp only
      rw [hw]
      simp only [Bool.not_true, Bool.false_and, Bool.false_eq_true, if_false]
      rw [hfo, hcd]
      simp only [Bool.and_self, if_true]
      unfold closeFile clearFile
      rw [hfo]
      simp
    have hn2 : fuel + 2 = Nat.succ (fuel + 1) := rfl
    rw [hn2, Read, readIter, hwf]
  · intro fuel r env size srest op0 wrest hw hfo hcd hstats hwfe
    have hn : fuel + 2 = Nat.succ (fuel + 1) := rfl
    rw [hn, waitForFile, hstats]
    dsimp only
    rw [hw]
    simp only [Bool.not_true, Bool.false_and, Bool.false_eq_true, if_false]
    rw [hfo, hcd]
    simp only [Bool.and_false, Bool.false_eq_true, if_false]
    rw [hwfe]
    dsimp only
    have hn1 : fuel + 1 = Nat.succ fuel := rfl
    rw [hn1, waitForFile]

/-- Witness for C3 amended: the three parts applied at concrete inputs —
the no-wait failure with the handle open, the deletion EndOfStream with
the handle released, and the keep-handle-and-wait continuation. -/
theorem claim3_witness :
    (c3rA.options.WaitForFile = false ∧
      Read 8 c3rA { emptyEnv with stats := [none] } 2 =
        some (0, [], some Err.fileAccess, c3rA, emptyEnv)) ∧
    (c3rC.options.WaitForFile = true ∧ c3rC.fileOpen = true ∧
      c3rC.options.CloseOnDelete = true ∧
      Read 8 c3rC { emptyEnv with stats := [none] } 2 =
        some (0, [], some Err.eof, clearFile c3rC, emptyEnv)) ∧
    (c3rB.options.WaitForFile = true ∧ c3rB.fileOpen = true ∧
      c3rB.options.CloseOnDelete = false ∧
      waitForFile false c3rB c3envB 2 =
        some (7, none, c3rB, { c3envB with stats := [], watch := [] })) := by
  refine ⟨⟨by decide, ?_⟩, ⟨by decide, by decide, by decide, ?_⟩, ⟨by decide, by decide, by decide, ?_⟩⟩
  · exact claim3_absent_file.1 0 8 c3rA { emptyEnv with stats := [none] } []
      (by decide) (by decide)
  · exact claim3_absent_file.2.1 0 8 c3rC { emptyEnv with stats := [none] } []
      (by decide) (by decide) (by decide) (by decide)
  · exact claim3_absent_file.2.2 0 c3rB c3envB 7 [] 1 []
      (by decide) (by decide) (by decide) (by decide) (by decide)

end Tailreader
